import Mathlib

/-!
Verification of the kimi-deploy proxy (src/main.ts) against its
natural-language specification.

The TypeScript source is shallowly embedded: every pure fragment of the
code becomes a Lean function with the same name where possible, the
stateful fragments (nonce cache, session cache) become explicit state
passing over small state types, and the asynchronous event loop is
modelled by event traces.  Network effects are recorded in explicit
event lists; wall-clock reads (Date.now) become explicit Nat arguments.
-/

/-- A chat message, `{role, content}` as in the OpenAI request body and
in the stored session history (src/main.ts). -/
structure Msg where
  role : String
  content : String
deriving DecidableEq, Repr

/-- String concatenation is associative (via the underlying char lists). -/
theorem stringAppendAssoc (a b c : String) : a ++ b ++ c = a ++ (b ++ c) := by
  cases a with
  | mk da =>
    cases b with
    | mk db =>
      cases c with
      | mk dc =>
        show String.mk (da ++ db ++ dc) = String.mk (da ++ (db ++ dc))
        rw [List.append_assoc]

/-! ### Prompt compiler (src/main.ts lines 143-149, buildContextualPrompt) -/

/-- Model of JavaScript `String.prototype.trim`: drop whitespace
characters from both ends of the string.  (the built-in String.trim is
not kernel-reducible, so the same operation is written structurally
over the character list.) -/
def jsTrim (s : String) : String :=
  String.mk (((s.data.dropWhile Char.isWhitespace).reverse.dropWhile Char.isWhitespace).reverse)

/-- The mapping applied to each history entry inside
`buildContextualPrompt`: `msg.role === "user" ? "User" : "Model"`,
then the line `role + ": " + msg.content` (src/main.ts lines 144-147). -/
def historyLine (msg : Msg) : String :=
  (if msg.role = "user" then "User" else "Model") ++ ": " ++ msg.content

/-- Model of JavaScript `Array.prototype.join("\n")`: empty list gives
the empty string, otherwise elements separated by a single newline. -/
def joinNewline : List String → String
  | [] => ""
  | [s] => s
  | s :: rest => s ++ "\n" ++ joinNewline rest

/-- `buildContextualPrompt(history, newMessage)` from src/main.ts lines
143-149: map each history entry through `historyLine`, append the line
`User: <newMessage>`, join with newlines, and trim. -/
def buildContextualPrompt (history : List Msg) (newMessage : String) : String :=
  jsTrim (joinNewline (history.map historyLine ++ ["User: " ++ newMessage]))

/-- Modelled from the spec wording for the prompt compiler (spec section
4.3): role label table with exactly the two rows `user -> "User"` and
`assistant -> "Model"`; any other role is outside the data model of the spec,
rendered here as failure. -/
def specRoleLabel (role : String) : Option String :=
  if role = "user" then some "User"
  else if role = "assistant" then some "Model"
  else none

/-- Modelled from the spec wording (spec section 4.3): one line
`<RoleLabel>: <content>` per historical turn in order, followed by a
final line `User: <newUserContent>`, built by direct recursion. -/
def specCompileLines : List Msg → String → Option String
  | [], newUserContent => some ("User: " ++ newUserContent)
  | m :: rest, newUserContent =>
    match specRoleLabel m.role, specCompileLines rest newUserContent with
    | some l, some s => some (l ++ ": " ++ m.content ++ "\n" ++ s)
    | _, _ => none

/-- Modelled from the spec wording (spec section 4.3): the compiled
lines, trimmed of leading and trailing whitespace. -/
def specCompile (history : List Msg) (newUserContent : String) : Option String :=
  (specCompileLines history newUserContent).map jsTrim

/-- Unfolding lemma for `joinNewline` on a cons with nonempty tail. -/
theorem joinNewline_cons (a : String) (l : List String) (h : l ≠ []) :
    joinNewline (a :: l) = a ++ "\n" ++ joinNewline l := by
  cases l with
  | nil => exact absurd rfl h
  | cons b t => rfl

/-- Helper: on histories whose roles are all `user` or `assistant`, the
spec-side recursive renderer agrees with the map-join pipeline of the source
before trimming. -/
theorem specCompileLines_eq_join (history : List Msg) (newUserContent : String)
    (h : ∀ m ∈ history, m.role = "user" ∨ m.role = "assistant") :
    specCompileLines history newUserContent =
      some (joinNewline (history.map historyLine ++ ["User: " ++ newUserContent])) := by
  induction history with
  | nil => rfl
  | cons m rest ih =>
    have hm := h m (List.mem_cons_self m rest)
    have hrest : ∀ x ∈ rest, x.role = "user" ∨ x.role = "assistant" :=
      fun x hx => h x (List.mem_cons_of_mem m hx)
    have hne : rest.map historyLine ++ ["User: " ++ newUserContent] ≠ [] := by simp
    rw [List.map_cons, List.cons_append, joinNewline_cons _ _ hne]
    rcases hm with hu | ha
    · simp [specCompileLines, specRoleLabel, hu, ih hrest, historyLine, stringAppendAssoc]
    · by_cases hu : m.role = "user"
      · simp [specCompileLines, specRoleLabel, hu, ih hrest, historyLine, stringAppendAssoc]
      · simp [specCompileLines, specRoleLabel, hu, ha, ih hrest, historyLine, stringAppendAssoc]

/-- C4: the prompt compiler is a pure function of (history, new user
content); on the data model of the spec (roles `user`/`assistant`) the
source function `buildContextualPrompt` coincides with the spec rendering
(one `<RoleLabel>: <content>` line per turn in order, `user -> User`,
`assistant -> Model`, final `User: <new>` line, newline-joined,
trimmed); in particular the history [{user,"2+2?"},{assistant,"4"}]
with new message "3+3?" compiles to exactly
"User: 2+2?\nModel: 4\nUser: 3+3?". -/
theorem c4_prompt_compiler_correct (history : List Msg) (newUserContent : String)
    (h : ∀ m ∈ history, m.role = "user" ∨ m.role = "assistant") :
    specCompile history newUserContent = some (buildContextualPrompt history newUserContent) ∧
    buildContextualPrompt [⟨"user", "2+2?"⟩, ⟨"assistant", "4"⟩] "3+3?"
      = "User: 2+2?\nModel: 4\nUser: 3+3?" := by
  constructor
  · simp [specCompile, specCompileLines_eq_join history newUserContent h, buildContextualPrompt]
  · decide

/-- Witness for C4 at the example input given in the spec. -/
theorem c4_prompt_compiler_correct_witness :
    specCompile [⟨"user", "2+2?"⟩, ⟨"assistant", "4"⟩] "3+3?"
      = some (buildContextualPrompt [⟨"user", "2+2?"⟩, ⟨"assistant", "4"⟩] "3+3?") :=
  (c4_prompt_compiler_correct [⟨"user", "2+2?"⟩, ⟨"assistant", "4"⟩] "3+3?"
    (by decide)).1

/-- C10: in the compiled prompt every history turn whose role is not
exactly "user" — including roles such as "system" — is rendered with
the "Model" label, indistinguishably from an assistant turn; only the
exact role "user" yields the "User" label. -/
theorem c10_nonuser_roles_render_as_model (role content newUserContent : String)
    (h : role ≠ "user") :
    historyLine ⟨role, content⟩ = "Model" ++ ": " ++ content ∧
    buildContextualPrompt [⟨role, content⟩] newUserContent
      = buildContextualPrompt [⟨"assistant", content⟩] newUserContent ∧
    historyLine ⟨"user", content⟩ = "User" ++ ": " ++ content := by
  refine ⟨?_, ?_, ?_⟩
  · simp [historyLine, h]
  · simp [buildContextualPrompt, historyLine, h]
  · simp [historyLine]

/-- Witness for C10 at role "system". -/
theorem c10_nonuser_roles_render_as_model_witness :
    historyLine ⟨"system", "be brief"⟩ = "Model" ++ ": " ++ "be brief" :=
  (c10_nonuser_roles_render_as_model "system" "be brief" "hi" (by decide)).1

/-! ### Upstream request translator (src/main.ts lines 151-168, preparePayload) -/

/-- The URLSearchParams body built by `preparePayload` (src/main.ts
lines 161-167): fields action, nonce, message, model, session id. -/
structure Payload where
  action : String
  nonce : String
  message : String
  model : String
  sessionId : String
deriving DecidableEq, Repr

/-- `preparePayload(prompt, model, sessionId, nonce)` from src/main.ts
lines 151-168: the two-entry model mapping table; any other model
throws `Unsupported model: <model>`. -/
def preparePayload (prompt model sessionId nonce : String) : Except String Payload :=
  if model = "kimi-k2-instruct-0905" then
    .ok ⟨"kimi_send_message", nonce, prompt, "moonshotai/Kimi-K2-Instruct-0905", sessionId⟩
  else if model = "kimi-k2-instruct" then
    .ok ⟨"kimi_send_message", nonce, prompt, "moonshotai/Kimi-K2-Instruct", sessionId⟩
  else
    .error ("Unsupported model: " ++ model)

/-! ### Chunk emitter (src/main.ts lines 40-59 and 264-274) -/

/-- One OpenAI-style streaming chunk as built by
`createChatCompletionChunk` (src/main.ts lines 40-59): the single
delta content and finish reason of the single choice are inlined as fields. -/
structure ChatChunk where
  id : String
  object : String
  created : Nat
  model : String
  deltaContent : String
  finishReason : Option String
deriving DecidableEq, Repr

/-- `createChatCompletionChunk(requestId, model, content, finishReason)`
from src/main.ts lines 40-59.  The source reads the wall clock
(`Math.floor(Date.now() / 1000)`) for the `created` field; that clock
read is the explicit `now` argument here. -/
def createChatCompletionChunk (requestId model content : String)
    (finishReason : Option String) (now : Nat) : ChatChunk :=
  { id := requestId
    object := "chat.completion.chunk"
    created := now
    model := model
    deltaContent := content
    finishReason := finishReason }

/-- One item on the SSE wire: either a data chunk or the literal
`data: [DONE]` sentinel (src/main.ts lines 34-38). -/
inductive SSEItem where
  | chunk (c : ChatChunk)
  | done
deriving DecidableEq, Repr

/-- The per-character loop of the pseudo-streaming generator
(src/main.ts lines 265-269): one chunk per character of the assistant
text, in order, each with null finish reason.  `clock i` is the wall
clock at the i-th emitted chunk (the 20 ms typewriter delay lets it
advance between chunks). -/
def charChunks (requestId model : String) (clock : Nat → Nat) :
    List Char → Nat → List SSEItem
  | [], _ => []
  | c :: rest, i =>
    .chunk (createChatCompletionChunk requestId model (String.singleton c) none (clock i))
      :: charChunks requestId model clock rest (i + 1)

/-- The stream body of `chatCompletion` after the upstream result is
known (src/main.ts lines 250-274): on failure (null result) one chunk
carrying the failure text with finish reason "stop", then [DONE]; on
success one chunk per character, then an empty "stop" chunk, then
[DONE], and the stream is closed. -/
def streamEvents (requestId model : String) (result : Option String)
    (clock : Nat → Nat) : List SSEItem :=
  match result with
  | none =>
    [.chunk (createChatCompletionChunk requestId model
        "Upstream request still failed after retry" (some "stop") (clock 0)),
      .done]
  | some content =>
    charChunks requestId model clock content.data 0 ++
      [.chunk (createChatCompletionChunk requestId model "" (some "stop")
          (clock content.data.length)),
        .done]

/-- The delta contents of the data chunks of a stream, in order. -/
def chunkContents (items : List SSEItem) : List String :=
  items.filterMap fun it =>
    match it with
    | .chunk c => some c.deltaContent
    | .done => none

/-- Erase the wall-clock field of a chunk (used to compare emissions
that differ only in emission time). -/
def eraseCreated (it : SSEItem) : SSEItem :=
  match it with
  | .chunk c => .chunk { c with created := 0 }
  | .done => .done

/-! ### The request/retry loop (src/main.ts lines 215-248, makeRequest) -/

/-- A network side effect of one chat-completion request: a fetch of
the upstream token page (from getNonce/fetchNonce; forced when
`getNonce(true)`), or the POST of a prepared payload to the upstream
completion endpoint (src/main.ts line 222). -/
inductive NetEvent where
  | tokenPageFetch (forced : Bool)
  | upstreamCall (payload : Payload)
deriving DecidableEq, Repr

/-- The environment one request runs against: whether the nonce cache
already holds a promise when the first non-forced `getNonce` runs, and
the outcomes of awaiting the nonce and of the upstream call on each
attempt (indexed by `isRetry`). -/
structure UpstreamEnv where
  cacheHit : Bool
  nonceResult : Bool → Except String String
  upstreamResult : Bool → Except String String

/-- One attempt of `makeRequest` (src/main.ts lines 215-245) without
the retry recursion: await getNonce(isRetry) — a token-page fetch
starts iff the call is forced or the cache is empty — then
preparePayload, then the upstream POST.  Any thrown error is caught
and surfaces as `none`; the second component is the trace of network
events of this attempt. -/
def attemptRun (env : UpstreamEnv) (prompt model sessionId : String)
    (isRetry : Bool) : Option String × List NetEvent :=
  let fetchEvents := if isRetry || !env.cacheHit then [NetEvent.tokenPageFetch isRetry] else []
  match env.nonceResult isRetry with
  | .error _ => (none, fetchEvents)
  | .ok nonce =>
    match preparePayload prompt model sessionId nonce with
    | .error _ => (none, fetchEvents)
    | .ok payload =>
      match env.upstreamResult isRetry with
      | .error _ => (none, fetchEvents ++ [NetEvent.upstreamCall payload])
      | .ok msg => (some msg, fetchEvents ++ [NetEvent.upstreamCall payload])

/-- `makeRequest` (src/main.ts lines 215-246): run the first attempt
(`isRetry=false`); if it throws, run exactly one retry
(`isRetry=true`, so with a forced nonce refresh) and, if that throws
too, return null.  The second component is the network trace of the
whole request, in order. -/
def makeRequest (env : UpstreamEnv) (prompt model sessionId : String) :
    Option String × List NetEvent :=
  let first := attemptRun env prompt model sessionId false
  match first.1 with
  | some msg => (some msg, first.2)
  | none =>
    let second := attemptRun env prompt model sessionId true
    (second.1, first.2 ++ second.2)

/-- Number of upstream completion calls in a network trace. -/
def upstreamCount : List NetEvent → Nat
  | [] => 0
  | .upstreamCall _ :: rest => upstreamCount rest + 1
  | .tokenPageFetch _ :: rest => upstreamCount rest


/-! ### Helper lemmas on attempts and traces -/

/-- Upstream call counts add up over concatenated traces. -/
theorem upstreamCount_append (a b : List NetEvent) :
    upstreamCount (a ++ b) = upstreamCount a + upstreamCount b := by
  induction a with
  | nil => simp [upstreamCount]
  | cons e rest ih =>
    cases e with
    | tokenPageFetch f => simp [upstreamCount, ih]
    | upstreamCall pl =>
      simp [upstreamCount, ih]
      omega

/-- The token-page-fetch part of an attempt trace counts no upstream calls. -/
theorem upstreamCount_fetchEvents (c : Prop) [Decidable c] (b : Bool) :
    upstreamCount (if c then [NetEvent.tokenPageFetch b] else []) = 0 := by
  split <;> rfl

/-- Each single attempt makes at most one upstream completion call. -/
theorem upstreamCount_attemptRun_le_one (env : UpstreamEnv) (p model s : String) (b : Bool) :
    upstreamCount (attemptRun env p model s b).2 ≤ 1 := by
  unfold attemptRun
  rcases hn : env.nonceResult b with e | nonce
  · simp only [hn]
    simp [upstreamCount_fetchEvents]
  · simp only [hn]
    rcases hp : preparePayload p model s nonce with e | payload
    · simp only [hp]
      simp [upstreamCount_fetchEvents]
    · simp only [hp]
      rcases hu : env.upstreamResult b with e | msg <;> simp only [hu] <;>
        simp [upstreamCount_append, upstreamCount_fetchEvents, upstreamCount]

/-- The first attempt never performs a forced token-page fetch: its
`getNonce` call passes `isRetry = false`. -/
theorem attemptRun_first_no_forced_fetch (env : UpstreamEnv) (p model s : String) :
    NetEvent.tokenPageFetch true ∉ (attemptRun env p model s false).2 := by
  unfold attemptRun
  rcases hn : env.nonceResult false with e | nonce
  · simp only [hn]
    split <;> simp
  · simp only [hn]
    rcases hp : preparePayload p model s nonce with e | payload
    · simp only [hp]
      split <;> simp
    · simp only [hp]
      rcases hu : env.upstreamResult false with e | msg <;> simp only [hu] <;>
        split <;> simp

/-- If the upstream call of an attempt reports an error, that attempt
produces no message (whatever happened earlier in the attempt). -/
theorem attemptRun_none_of_upstream_error (env : UpstreamEnv) (p model s : String)
    (b : Bool) (e : String) (h : env.upstreamResult b = .error e) :
    (attemptRun env p model s b).1 = none := by
  unfold attemptRun
  rcases hn : env.nonceResult b with e2 | nonce
  · simp only [hn]
  · simp only [hn]
    rcases hp : preparePayload p model s nonce with e2 | payload
    · simp only [hp]
    · simp only [hp, h]

/-- An attempt on an unsupported model produces no message and makes no
upstream completion call. -/
theorem attemptRun_unsupported_model (env : UpstreamEnv) (p model s : String) (b : Bool)
    (h1 : model ≠ "kimi-k2-instruct-0905") (h2 : model ≠ "kimi-k2-instruct") :
    (attemptRun env p model s b).1 = none ∧
      upstreamCount (attemptRun env p model s b).2 = 0 := by
  unfold attemptRun
  rcases hn : env.nonceResult b with e | nonce
  · simp only [hn]
    exact ⟨trivial, upstreamCount_fetchEvents _ b⟩
  · simp only [hn]
    have hp : preparePayload p model s nonce = .error ("Unsupported model: " ++ model) := by
      simp [preparePayload, h1, h2]
    simp only [hp]
    exact ⟨trivial, upstreamCount_fetchEvents _ b⟩

/-! ### Concrete environments used as counterexamples and witnesses -/

/-- Environment with a warm nonce cache where nonce acquisition and the
upstream endpoint would both succeed. -/
def envAllOk : UpstreamEnv :=
  ⟨true, fun _ => .ok "nonce-a", fun _ => .ok "hello"⟩

/-- Environment with a warm nonce cache where every upstream completion
call fails (for example with HTTP status 500). -/
def envBothFail : UpstreamEnv :=
  ⟨true, fun _ => .ok "nonce-a", fun _ => .error "Upstream API error, status code: 500"⟩

/-- Environment where the first upstream call fails and the retry
succeeds. -/
def envRetrySucceeds : UpstreamEnv :=
  ⟨true, fun _ => .ok "nonce-a",
    fun isRetry => if isRetry then .ok "hi" else .error "Upstream API error, status code: 403"⟩

/-! ### C1: unsupported model -/

/-- C1 counterexample: with model "gpt-4" (outside the two-entry table)
the request does perform a token-page fetch — the thrown unsupported
model error is caught by the generic retry handler, which calls
getNonce with forceRefresh=true — so the claim that no token-page
fetch occurs for such a request is false.  (The state after the first
attempt is shown too: the whole network trace is exactly one forced
token-page fetch.) -/
theorem c1_unsupported_model_counterexample :
    preparePayload "hi" "gpt-4" "session_1" "nonce-a"
        = .error ("Unsupported model: " ++ "gpt-4") ∧
    (makeRequest envAllOk "hi" "gpt-4" "session_1").2
        = [NetEvent.tokenPageFetch true] ∧
    NetEvent.tokenPageFetch true ∈ (makeRequest envAllOk "hi" "gpt-4" "session_1").2 := by
  refine ⟨rfl, rfl, ?_⟩
  decide

/-- C1 (amended): for every request whose model is outside the known
two-entry table, payload preparation fails with the UnsupportedModel
error, no upstream completion call is ever made (on either attempt),
and the request produces no assistant message; token-page fetches may
still occur, because the error is only raised after the nonce is
awaited and is then caught by the retry handler. -/
theorem c1_unsupported_model_no_upstream_call (env : UpstreamEnv)
    (p model s : String)
    (h1 : model ≠ "kimi-k2-instruct-0905") (h2 : model ≠ "kimi-k2-instruct") :
    (∀ nonce, preparePayload p model s nonce
        = .error ("Unsupported model: " ++ model)) ∧
    (makeRequest env p model s).1 = none ∧
    upstreamCount (makeRequest env p model s).2 = 0 := by
  have hfirst := attemptRun_unsupported_model env p model s false h1 h2
  have hsecond := attemptRun_unsupported_model env p model s true h1 h2
  refine ⟨fun nonce => by simp [preparePayload, h1, h2], ?_, ?_⟩
  · unfold makeRequest
    simp only [hfirst.1]
    exact hsecond.1
  · unfold makeRequest
    simp only [hfirst.1]
    simp [upstreamCount_append, hfirst.2, hsecond.2]

/-- Witness for C1 (amended) at model "gpt-4". -/
theorem c1_unsupported_model_no_upstream_call_witness :
    (makeRequest envBothFail "hi" "gpt-4" "session_1").1 = none ∧
    upstreamCount (makeRequest envBothFail "hi" "gpt-4" "session_1").2 = 0 :=
  (c1_unsupported_model_no_upstream_call envBothFail "hi" "gpt-4" "session_1"
    (by decide) (by decide)).2

/-! ### C2: double failure stream shape -/

/-- C2 counterexample: when both attempts fail, the emitted stream is
NOT an error chunk followed by a separate stop chunk followed by
[DONE] (three wire items); the code emits exactly two wire items: one
chunk that carries both the failure text and finish reason "stop", then
[DONE]. -/
theorem c2_double_failure_counterexample :
    (makeRequest envBothFail "hi" "kimi-k2-instruct" "session_1").1 = none ∧
    ¬ (∃ c1 c2 : ChatChunk,
        streamEvents "chatcmpl-1" "kimi-k2-instruct"
            (makeRequest envBothFail "hi" "kimi-k2-instruct" "session_1").1 (fun _ => 1700000000)
          = [SSEItem.chunk c1, SSEItem.chunk c2, SSEItem.done] ∧
        c1.deltaContent = "Upstream request still failed after retry" ∧
        c2.finishReason = some "stop") := by
  refine ⟨rfl, ?_⟩
  rintro ⟨c1, c2, h, -, -⟩
  have hres : (makeRequest envBothFail "hi" "kimi-k2-instruct" "session_1").1 = none := rfl
  rw [hres] at h
  have hlen := congrArg List.length h
  simp [streamEvents] at hlen

/-- C2 (amended): when both the first attempt and the single retry fail,
the stream consists of exactly one chunk whose content states the
failure and which itself carries finish reason "stop", followed by the
[DONE] sentinel, and nothing else; the stream is a well-formed
terminated sequence (it is produced in full and ends with [DONE]),
never an abrupt termination. -/
theorem c2_double_failure_stream (env : UpstreamEnv) (p model s rid : String)
    (clock : Nat → Nat) (e1 e2 : String)
    (h1 : env.upstreamResult false = .error e1)
    (h2 : env.upstreamResult true = .error e2) :
    (makeRequest env p model s).1 = none ∧
    streamEvents rid model (makeRequest env p model s).1 clock
      = [SSEItem.chunk (createChatCompletionChunk rid model
            "Upstream request still failed after retry" (some "stop") (clock 0)),
          SSEItem.done] ∧
    chunkContents (streamEvents rid model (makeRequest env p model s).1 clock)
      = ["Upstream request still failed after retry"] ∧
    (streamEvents rid model (makeRequest env p model s).1 clock).getLast? = some SSEItem.done := by
  have hfirst := attemptRun_none_of_upstream_error env p model s false e1 h1
  have hsecond := attemptRun_none_of_upstream_error env p model s true e2 h2
  have hres : (makeRequest env p model s).1 = none := by
    unfold makeRequest
    simp only [hfirst]
    exact hsecond
  refine ⟨hres, ?_, ?_, ?_⟩ <;> rw [hres] <;> rfl

/-- Witness for C2 (amended) in the all-failing environment. -/
theorem c2_double_failure_stream_witness :
    chunkContents (streamEvents "chatcmpl-1" "kimi-k2-instruct"
        (makeRequest envBothFail "hi" "kimi-k2-instruct" "session_1").1 (fun _ => 1700000000))
      = ["Upstream request still failed after retry"] :=
  (c2_double_failure_stream envBothFail "hi" "kimi-k2-instruct" "session_1" "chatcmpl-1"
    (fun _ => 1700000000) "Upstream API error, status code: 500"
    "Upstream API error, status code: 500" rfl rfl).2.2.1

/-! ### C3: bounded retry, fail-then-succeed scenario -/

/-- Chunk contents distribute over concatenated streams. -/
theorem chunkContents_append (l1 l2 : List SSEItem) :
    chunkContents (l1 ++ l2) = chunkContents l1 ++ chunkContents l2 :=
  List.filterMap_append l1 l2 _

/-- The contents of the per-character chunks are exactly the characters
of the assistant text, in order. -/
theorem chunkContents_charChunks (rid model : String) (clock : Nat → Nat) :
    ∀ (cs : List Char) (i : Nat),
      chunkContents (charChunks rid model clock cs i) = cs.map String.singleton := by
  intro cs
  induction cs with
  | nil => intro i; rfl
  | cons c rest ih =>
    intro i
    simp [charChunks, chunkContents, List.filterMap_cons, createChatCompletionChunk] at ih ⊢
    exact ih (i + 1)

/-- A list extended by two elements ends with the second one. -/
theorem getLast?_append_pair {α : Type} (l : List α) (a b : α) :
    (l ++ [a, b]).getLast? = some b := by
  have : l ++ [a, b] = (l ++ [a]) ++ [b] := by simp
  rw [this, List.getLast?_concat]

/-- A successful attempt under explicit nonce/payload/upstream outcomes. -/
theorem attemptRun_shape (env : UpstreamEnv) (p model s : String) (b : Bool)
    (n : String) (pl : Payload) (hn : env.nonceResult b = .ok n)
    (hp : preparePayload p model s n = .ok pl) :
    attemptRun env p model s b =
      ((env.upstreamResult b).toOption,
        (if b || !env.cacheHit then [NetEvent.tokenPageFetch b] else [])
          ++ [NetEvent.upstreamCall pl]) := by
  unfold attemptRun
  simp only [hn, hp]
  rcases hu : env.upstreamResult b with e | msg <;> simp [hu, Except.toOption]

/-- C3: for every request at most two upstream completion calls are
made; the first attempt acquires its token without forcing a refresh;
and in the fail-then-succeed scenario (first upstream call errors, the
retry succeeds, nonce acquisition succeeds, model known) the request
returns the message of the retry, makes exactly two upstream calls, its
retry performs a forced token-page fetch, and the emitted stream is
the full character-by-character sequence in order with an empty stop
chunk and the [DONE] sentinel at the end. -/
theorem c3_single_retry_and_recovery :
    (∀ (env : UpstreamEnv) (p model s : String),
      upstreamCount (makeRequest env p model s).2 ≤ 2) ∧
    (∀ (env : UpstreamEnv) (p model s : String),
      NetEvent.tokenPageFetch true ∉ (attemptRun env p model s false).2) ∧
    (∀ (env : UpstreamEnv) (p model s rid : String) (clock : Nat → Nat)
        (n1 n2 err msg : String),
      (model = "kimi-k2-instruct-0905" ∨ model = "kimi-k2-instruct") →
      env.nonceResult false = .ok n1 → env.nonceResult true = .ok n2 →
      env.upstreamResult false = .error err → env.upstreamResult true = .ok msg →
      (makeRequest env p model s).1 = some msg ∧
      upstreamCount (makeRequest env p model s).2 = 2 ∧
      NetEvent.tokenPageFetch true ∈ (makeRequest env p model s).2 ∧
      chunkContents (streamEvents rid model (makeRequest env p model s).1 clock)
        = msg.data.map String.singleton ++ [""] ∧
      (streamEvents rid model (makeRequest env p model s).1 clock).getLast?
        = some SSEItem.done) := by
  refine ⟨?_, ?_, ?_⟩
  · intro env p model s
    unfold makeRequest
    rcases h1 : (attemptRun env p model s false).1 with _ | msg
    · simp only [h1]
      calc upstreamCount ((attemptRun env p model s false).2 ++ (attemptRun env p model s true).2)
          = upstreamCount (attemptRun env p model s false).2
            + upstreamCount (attemptRun env p model s true).2 := upstreamCount_append _ _
        _ ≤ 1 + 1 := Nat.add_le_add (upstreamCount_attemptRun_le_one env p model s false)
            (upstreamCount_attemptRun_le_one env p model s true)
    · simp only [h1]
      exact Nat.le_trans (upstreamCount_attemptRun_le_one env p model s false) (by omega)
  · intro env p model s
    exact attemptRun_first_no_forced_fetch env p model s
  · intro env p model s rid clock n1 n2 err msg hm hn1 hn2 hu1 hu2
    have hp : ∀ n, ∃ pl, preparePayload p model s n = .ok pl := by
      rcases hm with h | h <;> subst h
      · exact fun n =>
          ⟨⟨"kimi_send_message", n, p, "moonshotai/Kimi-K2-Instruct-0905", s⟩,
            by simp [preparePayload]⟩
      · exact fun n =>
          ⟨⟨"kimi_send_message", n, p, "moonshotai/Kimi-K2-Instruct", s⟩,
            by simp [preparePayload]⟩
    obtain ⟨pl1, hpl1⟩ := hp n1
    obtain ⟨pl2, hpl2⟩ := hp n2
    have hfirst := attemptRun_shape env p model s false n1 pl1 hn1 hpl1
    have hsecond := attemptRun_shape env p model s true n2 pl2 hn2 hpl2
    rw [hu1] at hfirst
    rw [hu2] at hsecond
    have hreq : makeRequest env p model s =
        (some msg,
          ((if false || !env.cacheHit then [NetEvent.tokenPageFetch false] else [])
              ++ [NetEvent.upstreamCall pl1])
            ++ ([NetEvent.tokenPageFetch true] ++ [NetEvent.upstreamCall pl2])) := by
      unfold makeRequest
      rw [hfirst, hsecond]
      rfl
    refine ⟨by rw [hreq], ?_, ?_, ?_, ?_⟩
    · rw [hreq]
      simp only [upstreamCount_append]
      rw [upstreamCount_fetchEvents]
      rfl
    · rw [hreq]
      simp
    · rw [hreq]
      show chunkContents (streamEvents rid model (some msg) clock) = _
      simp only [streamEvents, chunkContents_append,
        chunkContents_charChunks rid model clock msg.data 0]
      rfl
    · rw [hreq]
      show (streamEvents rid model (some msg) clock).getLast? = some SSEItem.done
      simp only [streamEvents]
      exact getLast?_append_pair _ _ _

/-- Witness for C3 in the environment where the retry succeeds. -/
theorem c3_single_retry_and_recovery_witness :
    (makeRequest envRetrySucceeds "hi" "kimi-k2-instruct" "session_1").1 = some "hi" ∧
    upstreamCount (makeRequest envRetrySucceeds "hi" "kimi-k2-instruct" "session_1").2 = 2 :=
  let h := c3_single_retry_and_recovery.2.2 envRetrySucceeds "hi" "kimi-k2-instruct"
    "session_1" "chatcmpl-1" (fun _ => 1700000000) "nonce-a" "nonce-a"
    "Upstream API error, status code: 403" "hi" (Or.inr rfl) rfl rfl rfl rfl
  ⟨h.1, h.2.1⟩

/-! ### C9: emitter determinism -/

/-- C9 counterexample: two emissions with identical assistant text,
request id and model, performed at different wall-clock times, differ
(in the created field of their chunks), so the emitted sequence is not
a function of (assistantText, requestId, model) alone. -/
theorem c9_emitter_created_counterexample :
    streamEvents "chatcmpl-1" "kimi-k2-instruct" (some "a") (fun _ => 1700000000)
      ≠ streamEvents "chatcmpl-1" "kimi-k2-instruct" (some "a") (fun _ => 1700000001) := by
  decide

/-- Erasing the created field of both emissions makes the per-character
lemma available chunk by chunk. -/
theorem charChunks_eraseCreated (rid model : String) (clock1 clock2 : Nat → Nat) :
    ∀ (cs : List Char) (i j : Nat),
      (charChunks rid model clock1 cs i).map eraseCreated
        = (charChunks rid model clock2 cs j).map eraseCreated := by
  intro cs
  induction cs with
  | nil => intro i j; rfl
  | cons c rest ih =>
    intro i j
    simp only [charChunks, List.map_cons, eraseCreated, createChatCompletionChunk]
    exact congrArg _ (ih (i + 1) (j + 1))

/-- C9 (amended): the chunk emitter is deterministic given
(assistantText, requestId, model) in every field except created: the
two emissions have the same chunks — same id, object, model, delta
content and finish reason, in the same order, with the same [DONE]
sentinel — and can differ only in the created timestamps, which come
from the wall clock at the creation of each chunk. -/
theorem c9_emitter_deterministic_up_to_created (text rid model : String)
    (clock1 clock2 : Nat → Nat) :
    (streamEvents rid model (some text) clock1).map eraseCreated
      = (streamEvents rid model (some text) clock2).map eraseCreated ∧
    chunkContents (streamEvents rid model (some text) clock1)
      = chunkContents (streamEvents rid model (some text) clock2) := by
  constructor
  · simp only [streamEvents, List.map_append]
    rw [charChunks_eraseCreated rid model clock1 clock2 text.data 0 0]
    rfl
  · simp only [streamEvents, chunkContents_append,
      chunkContents_charChunks rid model clock1 text.data 0,
      chunkContents_charChunks rid model clock2 text.data 0]
    rfl

/-! ### Token acquirer state (src/main.ts lines 63-117) -/

/-- The nonce-related state of KimiAIProvider (src/main.ts lines
64-66): the last stored nonce value and the cached promise.  The
cached promise is represented by the numeric id of the fetch it came
from; `nextFetchId` numbers fetches, and `pending` lists the fetches
started but not yet settled (in flight). -/
structure NonceState where
  nonce : Option String
  noncePromise : Option Nat
  nextFetchId : Nat
  pending : List Nat
deriving DecidableEq, Repr

/-- Provider state at construction: no nonce, no cached promise. -/
def initialNonceState : NonceState := ⟨none, none, 0, []⟩

/-- Starting a fresh fetchNonce() call and caching its promise (the
body of the if in getNonce, src/main.ts lines 107-114). -/
def startFetch (st : NonceState) : Nat × NonceState :=
  (st.nextFetchId,
    { st with
        noncePromise := some st.nextFetchId,
        nextFetchId := st.nextFetchId + 1,
        pending := st.pending ++ [st.nextFetchId] })

/-- getNonce(forceRefresh) (src/main.ts lines 106-117): if no promise
is cached or a refresh is forced, start and cache a fresh fetch;
otherwise hand the caller the cached promise.  Returns the id of the
fetch the caller awaits, the new state, and whether a fetch started. -/
def getNonce (st : NonceState) (forceRefresh : Bool) : Nat × NonceState × Bool :=
  match st.noncePromise with
  | none => ((startFetch st).1, (startFetch st).2, true)
  | some fid =>
    if forceRefresh then ((startFetch st).1, (startFetch st).2, true)
    else (fid, st, false)

/-- The then-handler attached to the cached promise (src/main.ts lines
108-110): when fetch `fid` resolves with a value the handler stores it
in this.nonce; the fetch is no longer in flight. -/
def settleOk (st : NonceState) (fid : Nat) (value : String) : NonceState :=
  { st with nonce := some value, pending := st.pending.erase fid }

/-- The catch-handler (src/main.ts lines 111-114): when fetch `fid`
rejects, the handler clears this.noncePromise (allowing a retry) and
rethrows the error to every awaiting caller; the fetch is no longer in
flight. -/
def settleFail (st : NonceState) (fid : Nat) : NonceState :=
  { st with noncePromise := none, pending := st.pending.erase fid }

/-- Reachable provider states when every acquisition is non-forced
(the scope of the single-flight claim): interleavings of getNonce(false)
calls and settlements of fetches actually in flight. -/
inductive AcqReachable : NonceState → Prop
  | init : AcqReachable initialNonceState
  | acquire {st : NonceState} : AcqReachable st → AcqReachable (getNonce st false).2.1
  | ok {st : NonceState} {fid : Nat} (v : String) :
      AcqReachable st → fid ∈ st.pending → AcqReachable (settleOk st fid v)
  | fail {st : NonceState} {fid : Nat} :
      AcqReachable st → fid ∈ st.pending → AcqReachable (settleFail st fid)

/-- The single-flight invariant: at most one fetch in flight, and any
in-flight fetch is exactly the cached one. -/
def NonceInv (st : NonceState) : Prop :=
  st.pending.length ≤ 1 ∧ ∀ fid ∈ st.pending, st.noncePromise = some fid

/-- The single-flight invariant holds in every reachable state of the
non-forced acquisition machine. -/
theorem nonceInv_of_reachable (st : NonceState) (h : AcqReachable st) : NonceInv st := by
  induction h with
  | init => exact ⟨by simp [initialNonceState], by simp [initialNonceState]⟩
  | acquire hr ih =>
    rename_i st
    obtain ⟨hlen, hptr⟩ := ih
    rcases hc : st.noncePromise with _ | fid
    · have hemp : st.pending = [] := by
        cases hp : st.pending with
        | nil => rfl
        | cons x rest =>
          have := hptr x (by rw [hp]; exact List.mem_cons_self x rest)
          rw [hc] at this
          exact absurd this (by simp)
      constructor
      · simp [getNonce, hc, startFetch, hemp]
      · intro fid hfid
        simp [getNonce, hc, startFetch, hemp] at hfid ⊢
        exact hfid.symm
    · constructor
      · simpa [getNonce, hc] using hlen
      · intro fid2 hfid2
        simpa [getNonce, hc] using hptr fid2 (by simpa [getNonce, hc] using hfid2)
  | ok v hr hmem ih =>
    rename_i st fid
    obtain ⟨hlen, hptr⟩ := ih
    constructor
    · exact Nat.le_trans (List.length_erase_le _ _) hlen
    · intro fid2 hfid2
      exact hptr fid2 (List.mem_of_mem_erase hfid2)
  | fail hr hmem ih =>
    rename_i st fid
    obtain ⟨hlen, hptr⟩ := ih
    have hsingle : st.pending = [fid] := by
      cases hp : st.pending with
      | nil => rw [hp] at hmem; exact absurd hmem (by simp)
      | cons x rest =>
        rw [hp] at hlen
        have hrest : rest = [] := by
          simpa using hlen
        subst hrest
        rw [hp] at hmem
        simp at hmem
        rw [hmem]
    constructor
    · simp [settleFail, hsingle]
    · intro fid2 hfid2
      simp [settleFail, hsingle] at hfid2

/-- C5: token acquisition is single-flight.  In every state reachable
by non-forced acquisitions and settlements, at most one token-page
fetch is in flight; any in-flight fetch is exactly the cached one (so
no duplicate fetch is ever started while one is cached or pending);
and while a fetch is cached or pending, a further non-forced caller is
attached to that very fetch: it observes the same fetch id, starts no
new fetch, and leaves the state untouched — hence every concurrent
caller observes the outcome (success or failure) of that one fetch. -/
theorem c5_single_flight_nonce (st : NonceState) (h : AcqReachable st) :
    st.pending.length ≤ 1 ∧
    (∀ fid ∈ st.pending, st.noncePromise = some fid) ∧
    (∀ fid, st.noncePromise = some fid →
      (getNonce st false).1 = fid ∧
      (getNonce st false).2.1 = st ∧
      (getNonce st false).2.2 = false) := by
  obtain ⟨hlen, hptr⟩ := nonceInv_of_reachable st h
  refine ⟨hlen, hptr, ?_⟩
  intro fid hfid
  simp [getNonce, hfid]

/-- Witness for C5: after one non-forced acquisition from the initial
state, fetch 0 is cached, and a second non-forced caller observes
fetch 0 and starts nothing. -/
theorem c5_single_flight_nonce_witness :
    (getNonce (getNonce initialNonceState false).2.1 false).1 = 0 ∧
    (getNonce (getNonce initialNonceState false).2.1 false).2.2 = false ∧
    (getNonce initialNonceState false).2.1.pending.length ≤ 1 :=
  have h := c5_single_flight_nonce (getNonce initialNonceState false).2.1
    (AcqReachable.acquire AcqReachable.init)
  ⟨(h.2.2 0 rfl).1, (h.2.2 0 rfl).2.2, h.1⟩

/-- C6: a failed fetch never poisons the cache.  The catch-handler of
the fetch promise clears the cached promise (this is the state any
later caller sees once the failure is propagated to the awaiting
callers), so the next acquisition — even a non-forced one — starts a
brand-new fetch from scratch instead of re-observing the old failure:
it triggers a fetch, is handed the fresh fetch id, and the fresh fetch
becomes the cached one. -/
theorem c6_failed_fetch_clears_cache (st : NonceState) (fid : Nat) :
    (settleFail st fid).noncePromise = none ∧
    (getNonce (settleFail st fid) false).2.2 = true ∧
    (getNonce (settleFail st fid) false).1 = (settleFail st fid).nextFetchId ∧
    (getNonce (settleFail st fid) false).2.1.noncePromise
      = some ((settleFail st fid).nextFetchId) :=
  ⟨rfl, rfl, rfl, rfl⟩

/-! ### Session store (src/main.ts lines 119-141 and 258-262) -/

/-- The per-user session object (src/main.ts lines 128-131): the
upstream conversation id and the message history. -/
structure SessionData where
  kimi_session_id : String
  messages : List Msg
deriving DecidableEq, Repr

/-- A freshly created session: empty history (src/main.ts line 130). -/
def newSessionData (sessionId : String) : SessionData :=
  ⟨sessionId, []⟩

/-- The history update performed after a successful upstream round
trip in stateful mode (src/main.ts lines 258-262): push the user turn,
then the assistant turn. -/
def updateSessionOnSuccess (s : SessionData) (userMsg : Msg)
    (assistantContent : String) : SessionData :=
  { s with messages := s.messages ++ [userMsg, ⟨"assistant", assistantContent⟩] }

/-- What chatCompletion does to the session given the makeRequest
result (src/main.ts lines 250-262): on a null result (both attempts
failed) the session is untouched; on success the two turns are
appended. -/
def applySessionResult (s : SessionData) (userMsg : Msg) :
    Option String → SessionData
  | none => s
  | some content => updateSessionOnSuccess s userMsg content

/-- N successive successful turns applied to a session. -/
def runTurns (s : SessionData) (turns : List (Msg × String)) : SessionData :=
  turns.foldl (fun acc t => updateSessionOnSuccess acc t.1 t.2) s

/-- Running turns only ever appends to the history and never touches
the conversation id. -/
theorem runTurns_messages (turns : List (Msg × String)) :
    ∀ s : SessionData,
      (runTurns s turns).messages
        = s.messages ++ turns.flatMap (fun t => [t.1, Msg.mk "assistant" t.2]) ∧
      (runTurns s turns).kimi_session_id = s.kimi_session_id := by
  induction turns with
  | nil => intro s; simp [runTurns]
  | cons t ts ih =>
    intro s
    have step : runTurns s (t :: ts) = runTurns (updateSessionOnSuccess s t.1 t.2) ts := rfl
    rw [step]
    obtain ⟨h1, h2⟩ := ih (updateSessionOnSuccess s t.1 t.2)
    constructor
    · rw [h1]
      simp [updateSessionOnSuccess, List.flatMap_cons]
    · rw [h2]
      rfl

/-- Two entries per turn: the flattened per-turn pairs have length 2N. -/
theorem flatMap_pairs_length (turns : List (Msg × String)) :
    (turns.flatMap (fun t => [t.1, Msg.mk "assistant" t.2])).length = 2 * turns.length := by
  induction turns with
  | nil => rfl
  | cons t ts ih =>
    simp only [List.flatMap_cons, List.length_append, List.length_cons,
      List.length_nil, ih]
    omega

/-- C7: session history is append-only.  A new session starts with an
empty history; each successful round trip appends exactly the user
turn then the assistant turn at the end, leaving all earlier entries
and the conversation id untouched; a failed round trip appends
nothing; and after N successful turns the history is exactly the
per-turn pairs in chronological order, of length 2N. -/
theorem c7_history_append_only :
    (∀ sessionId, (newSessionData sessionId).messages = []) ∧
    (∀ (s : SessionData) (userMsg : Msg) (content : String),
      (updateSessionOnSuccess s userMsg content).messages
        = s.messages ++ [userMsg, ⟨"assistant", content⟩] ∧
      (updateSessionOnSuccess s userMsg content).kimi_session_id = s.kimi_session_id) ∧
    (∀ (s : SessionData) (userMsg : Msg), applySessionResult s userMsg none = s) ∧
    (∀ (sessionId : String) (turns : List (Msg × String)),
      (runTurns (newSessionData sessionId) turns).messages
        = turns.flatMap (fun t => [t.1, Msg.mk "assistant" t.2]) ∧
      (runTurns (newSessionData sessionId) turns).messages.length = 2 * turns.length) := by
  refine ⟨fun _ => rfl, fun s u c => ⟨rfl, rfl⟩, fun s u => rfl, ?_⟩
  intro sessionId turns
  obtain ⟨h1, -⟩ := runTurns_messages turns (newSessionData sessionId)
  rw [h1]
  refine ⟨by simp [newSessionData], ?_⟩
  simp only [newSessionData, List.nil_append, List.length_nil]
  exact flatMap_pairs_length turns

/-! ### Session cache and expiry (src/main.ts lines 119-141) -/

/-- One entry of this.sessionCache (src/main.ts line 138): the session
data and the moment the one-shot eviction timer scheduled at creation
will fire (creation time + SESSION_CACHE_TTL). -/
structure StoreEntry where
  data : SessionData
  expiresAt : Nat
deriving DecidableEq, Repr

/-- The session cache, keyed by userKey. -/
def SessionStore : Type := List (String × StoreEntry)

/-- Map.has / Map.get of the session cache. -/
def lookupStore : SessionStore → String → Option StoreEntry
  | [], _ => none
  | (k, e) :: rest, key => if k = key then some e else lookupStore rest key

/-- getOrCreateSession(userKey) (src/main.ts lines 119-141), with the
wall clock and the generated session id made explicit.  On a cache hit
the stored session data is returned and nothing is mutated — in
particular the eviction timer scheduled at creation is left untouched
(fixed, not sliding, expiry).  On a miss a new session with empty
history is created, its eviction is scheduled for now + ttl (the
setTimeout at src/main.ts lines 133-136), and the entry is stored. -/
def getOrCreateSession (store : SessionStore) (userKey : String) (now ttl : Nat)
    (freshId : String) : SessionData × SessionStore :=
  match lookupStore store userKey with
  | some entry => (entry.data, store)
  | none =>
    let s := newSessionData freshId
    (s, (userKey, ⟨s, now + ttl⟩) :: store)

/-- The eviction timer for userKey firing (src/main.ts lines 133-136):
the entry is deleted from the cache. -/
def fireExpiry (store : SessionStore) (userKey : String) : SessionStore :=
  List.filter (fun kv => kv.1 != userKey) store

/-- A cache hit returns the stored data and leaves the store exactly
as it was. -/
theorem getOrCreateSession_hit (store : SessionStore) (userKey : String)
    (now ttl : Nat) (freshId : String) (entry : StoreEntry)
    (h : lookupStore store userKey = some entry) :
    getOrCreateSession store userKey now ttl freshId = (entry.data, store) := by
  unfold getOrCreateSession
  rw [h]

/-- C8: looking up an existing session mutates nothing, and expiry is
fixed at creation.  A hit returns the stored data with the store (and
hence every scheduled expiry) unchanged; a session created at time t0
with TTL T still carries expiry t0 + T after any sequence of further
lookups at any times; and once the timer fires — which it does at
t0 + T regardless of those lookups — the session is gone: lookup finds
nothing and getOrCreate builds a brand-new empty session. -/
theorem c8_lookup_is_pure_and_expiry_fixed (store : SessionStore) (userKey : String)
    (now ttl : Nat) (freshId : String) (entry : StoreEntry)
    (h : lookupStore store userKey = some entry) :
    getOrCreateSession store userKey now ttl freshId = (entry.data, store) ∧
    (∀ (t0 T : Nat) (sid : String) (lookups : List Nat),
      lookups.foldl (fun acc t => (getOrCreateSession acc userKey t T sid).2)
          (getOrCreateSession [] userKey t0 T sid).2
        = (getOrCreateSession [] userKey t0 T sid).2 ∧
      lookupStore (getOrCreateSession [] userKey t0 T sid).2 userKey
        = some ⟨newSessionData sid, t0 + T⟩ ∧
      lookupStore (fireExpiry (getOrCreateSession [] userKey t0 T sid).2 userKey) userKey
        = none ∧
      (∀ (t2 : Nat) (sid2 : String),
        (getOrCreateSession
            (fireExpiry (getOrCreateSession [] userKey t0 T sid).2 userKey)
            userKey t2 T sid2).1
          = newSessionData sid2)) := by
  refine ⟨getOrCreateSession_hit store userKey now ttl freshId entry h, ?_⟩
  intro t0 T sid lookups
  have hstore1 : (getOrCreateSession [] userKey t0 T sid).2
      = [(userKey, ⟨newSessionData sid, t0 + T⟩)] := rfl
  have hhit : lookupStore [(userKey, (⟨newSessionData sid, t0 + T⟩ : StoreEntry))] userKey
      = some ⟨newSessionData sid, t0 + T⟩ := by
    simp [lookupStore]
  have hfire : fireExpiry [(userKey, (⟨newSessionData sid, t0 + T⟩ : StoreEntry))] userKey
      = [] := by
    simp [fireExpiry]
  refine ⟨?_, by rw [hstore1]; exact hhit, by rw [hstore1, hfire]; rfl, ?_⟩
  · rw [hstore1]
    induction lookups with
    | nil => rfl
    | cons t ts ih =>
      rw [List.foldl_cons,
        congrArg Prod.snd (getOrCreateSession_hit _ userKey t T sid _ hhit)]
      exact ih
  · intro t2 sid2
    rw [hstore1, hfire]
    rfl

/-- Witness for C8 at a concrete one-entry store. -/
theorem c8_lookup_is_pure_and_expiry_fixed_witness :
    getOrCreateSession [("alice", ⟨⟨"session_7", []⟩, 4600⟩)] "alice" 2000 3600 "session_9"
      = ((⟨"session_7", []⟩ : SessionData), [("alice", ⟨⟨"session_7", []⟩, 4600⟩)]) :=
  (c8_lookup_is_pure_and_expiry_fixed [("alice", ⟨⟨"session_7", []⟩, 4600⟩)] "alice"
    2000 3600 "session_9" ⟨⟨"session_7", []⟩, 4600⟩ (by simp [lookupStore])).1
